import Mathlib

/-!
Shallow embedding of the review/audit subsystem of the beads work-item
tracker: the transactional review creation path in
internal/storage/sqlite/reviews.go, the review CLI command, the
review-history query, and the review-session lookup, together with the
schema constraints from migrations 019 and 020.

Timestamps are modelled as natural numbers; the Go zero time corresponds
to 0 (time.Time.IsZero). SQL tables are lists of rows in insertion
order; an ORDER BY clause is modelled by sorting the row list. Each
SQL statement execution may fail (the driver can return an error at any
step); this is modelled by a fault flag per statement. withTx models the
SQLite transaction: if the body returns an error, the partially updated
state is discarded and the original store is kept (rollback).
-/

namespace Beads

/-- Row of the reviews table (types.Review): id, issue_id, review_type,
outcome, reviewer, notes, created_at. -/
structure Review where
  id : Nat
  issueID : String
  reviewType : String
  outcome : String
  reviewer : String
  notes : String
  createdAt : Nat
deriving Repr, DecidableEq

/-- Row of the issues table, restricted to the fields the review
subsystem reads or writes (review_status, reviewed_by, reviewed_at,
updated_at) plus identity and title. -/
structure Issue where
  id : String
  title : String
  reviewStatus : String
  reviewedBy : String
  reviewedAt : Option Nat
  updatedAt : Nat
deriving Repr, DecidableEq

/-- Row of the dirty_issues table: (issue_id, marked_at). -/
structure DirtyMarker where
  issueID : String
  markedAt : Nat
deriving Repr, DecidableEq

/-- Row of the events table: (issue_id, event_type, actor, comment). -/
structure AuditEvent where
  issueID : String
  eventType : String
  actor : String
  comment : String
deriving Repr, DecidableEq

/-- Row of the review_sessions table (types.ReviewSession). -/
structure ReviewSession where
  id : Int
  rootIssueID : String
  reviewer : String
  startedAt : Nat
  completedAt : Option Nat
  summary : String
  itemsReviewed : Int
  itemsApproved : Int
  itemsNeedsRevision : Int
  itemsDeferred : Int
deriving Repr, DecidableEq

/-- The SQLite store: one list of rows per table, in insertion order,
plus the autoincrement counter of the reviews table. -/
structure Store where
  issues : List Issue
  reviews : List Review
  dirtyIssues : List DirtyMarker
  events : List AuditEvent
  sessions : List ReviewSession
  nextReviewID : Nat
deriving Repr, DecidableEq

/-- Modelled from the spec: the review outcome constant
types.ReviewOutcomeApproved (the types package is not under src; the
string is pinned by the CHECK constraint of migration 020). -/
def ReviewOutcomeApproved : String := "approved"

/-- Modelled from the spec: the review outcome constant
types.ReviewOutcomeNeedsRevision. -/
def ReviewOutcomeNeedsRevision : String := "needs_revision"

/-- Modelled from the spec: the review outcome constant
types.ReviewOutcomeDeferred. -/
def ReviewOutcomeDeferred : String := "deferred"

/-- Modelled from the spec: types.ReviewType.IsValid (the types package
is not under src). The spec's data model gives the review type domain
as the set containing plan, implementation, security and custom. -/
def ReviewTypeIsValid (t : String) : Bool :=
  t == "plan" || t == "implementation" || t == "security" || t == "custom"

/-- Default value of the --type flag of the review command
(part_003, init: reviewCmd.Flags().String("type", "plan", ...)). -/
def reviewTypeFlagDefault : String := "plan"

/-- CHECK constraint of the reviews table (migration 020):
outcome IN ('approved', 'needs_revision', 'deferred'). -/
def validOutcome (o : String) : Bool :=
  o == "approved" || o == "needs_revision" || o == "deferred"

/-- CHECK constraint on issues.review_status (migration 019):
review_status IN ('', 'unreviewed', 'approved', 'needs_revision',
'deferred'). -/
def allowedReviewStatus (o : String) : Bool :=
  o == "" || o == "unreviewed" || o == "approved" || o == "needs_revision" || o == "deferred"

/-- Fault environment for the four statements executed inside
CreateReview's transaction: any ExecContext call may return a driver
error. -/
structure TxFaults where
  failInsertReview : Bool
  failUpdateIssue : Bool
  failMarkDirty : Bool
  failRecordEvent : Bool
deriving Repr, DecidableEq

/-- Fault environment in which every statement succeeds. -/
def noFaults : TxFaults :=
  { failInsertReview := false, failUpdateIssue := false
    failMarkDirty := false, failRecordEvent := false }

/-- Fault environment in which every statement fails. -/
def allFaults : TxFaults :=
  { failInsertReview := true, failUpdateIssue := true
    failMarkDirty := true, failRecordEvent := true }

/-- The review row actually inserted by CreateReview: the id comes from
the autoincrement counter, and created_at defaults to the transaction
timestamp when the caller left it zero (review.CreatedAt.IsZero). -/
def reviewRecord (s : Store) (review : Review) (now : Nat) : Review :=
  { review with
    id := s.nextReviewID
    createdAt := if review.createdAt = 0 then now else review.createdAt }

/-- Effect of the UPDATE issues statement on one row: rows matching the
issue id get the new review summary fields; other rows are unchanged. -/
def setIssueReviewFields (issueID outcome reviewer : String) (now : Nat) (i : Issue) : Issue :=
  if i.id == issueID then
    { i with reviewStatus := outcome, reviewedBy := reviewer
             reviewedAt := some now, updatedAt := now }
  else i

/-- Effect of INSERT INTO dirty_issues ... ON CONFLICT (issue_id) DO
UPDATE SET marked_at = excluded.marked_at: update the existing marker's
timestamp when one exists, otherwise append a new marker. -/
def upsertDirtyList (l : List DirtyMarker) (issueID : String) (now : Nat) : List DirtyMarker :=
  if l.any (fun d => d.issueID == issueID) then
    l.map (fun d => if d.issueID == issueID then { d with markedAt := now } else d)
  else
    l ++ [{ issueID := issueID, markedAt := now }]

/-- Comment string of the audit event recorded by CreateReview:
fmt.Sprintf("Review: %s by %s", review.Outcome, review.Reviewer). -/
def reviewComment (outcome reviewer : String) : String :=
  "Review: " ++ outcome ++ " by " ++ reviewer

/-- INSERT INTO reviews inside the transaction. Fails on an injected
driver fault or when the outcome violates the table's CHECK
constraint. -/
def execInsertReview (fail : Bool) (s : Store) (review : Review) (now : Nat) :
    Store × Option String :=
  if fail then (s, some "failed to insert review")
  else if !(validOutcome review.outcome) then (s, some "failed to insert review")
  else ({ s with
          reviews := s.reviews ++ [reviewRecord s review now]
          nextReviewID := s.nextReviewID + 1 }, none)

/-- UPDATE issues SET review_status, reviewed_by, reviewed_at,
updated_at WHERE id = issueID. Fails on an injected fault, or when a
matched row would violate the review_status CHECK constraint. -/
def execUpdateIssue (fail : Bool) (s : Store) (issueID outcome reviewer : String) (now : Nat) :
    Store × Option String :=
  if fail then (s, some "failed to update issue review status")
  else if s.issues.any (fun i => i.id == issueID) && !(allowedReviewStatus outcome) then
    (s, some "failed to update issue review status")
  else ({ s with issues := s.issues.map (setIssueReviewFields issueID outcome reviewer now) }, none)

/-- INSERT INTO dirty_issues ... ON CONFLICT DO UPDATE. Fails only on an
injected driver fault. -/
def execMarkDirty (fail : Bool) (s : Store) (issueID : String) (now : Nat) :
    Store × Option String :=
  if fail then (s, some "failed to mark issue dirty")
  else ({ s with dirtyIssues := upsertDirtyList s.dirtyIssues issueID now }, none)

/-- INSERT INTO events (issue_id, event_type, actor, comment). Fails
only on an injected driver fault. -/
def execRecordEvent (fail : Bool) (s : Store) (issueID eventType actor comment : String) :
    Store × Option String :=
  if fail then (s, some "failed to record event")
  else ({ s with
          events := s.events ++
            [{ issueID := issueID, eventType := eventType, actor := actor, comment := comment }] },
        none)

/-- Body of CreateReview's transaction: the four statements in source
order, short-circuiting on the first error (Go returns early from the
closure). The state at the point of failure is returned so that withTx
has something to roll back. -/
def createReviewBody (f : TxFaults) (review : Review) (actor : String) (now : Nat)
    (s : Store) : Store × Option String :=
  match execInsertReview f.failInsertReview s review now with
  | (s1, some e) => (s1, some e)
  | (s1, none) =>
    match execUpdateIssue f.failUpdateIssue s1 review.issueID review.outcome review.reviewer now with
    | (s2, some e) => (s2, some e)
    | (s2, none) =>
      match execMarkDirty f.failMarkDirty s2 review.issueID now with
      | (s3, some e) => (s3, some e)
      | (s3, none) =>
        execRecordEvent f.failRecordEvent s3 review.issueID "reviewed" actor
          (reviewComment review.outcome review.reviewer)

/-- s.withTx: run the body in a transaction; commit its state on
success, roll back to the original store on error. -/
def withTx (s : Store) (body : Store → Store × Option String) : Store × Option String :=
  match body s with
  | (s1, none) => (s1, none)
  | (_, some e) => (s, some e)

/-- SQLiteStorage.CreateReview: inside one transaction, insert the
review row, update the issue's review summary fields, upsert the dirty
marker, and append the audit event. -/
def CreateReview (f : TxFaults) (s : Store) (review : Review) (actor : String) (now : Nat) :
    Store × Option String :=
  withTx s (createReviewBody f review actor now)

/-- Ordering used by ORDER BY created_at ASC. -/
def reviewLE (a b : Review) : Prop := a.createdAt ≤ b.createdAt

instance : DecidableRel reviewLE := fun a b => Nat.decLe a.createdAt b.createdAt

instance : IsTotal Review reviewLE := ⟨fun a b => Nat.le_total a.createdAt b.createdAt⟩

instance : IsTrans Review reviewLE := ⟨fun _ _ _ => Nat.le_trans⟩

/-- SQLiteStorage.GetReviewsByIssue: SELECT ... FROM reviews WHERE
issue_id = ? ORDER BY created_at ASC. -/
def GetReviewsByIssue (s : Store) (issueID : String) : List Review :=
  List.insertionSort reviewLE (s.reviews.filter (fun r => r.issueID == issueID))

/-- SQLiteStorage.GetReviewSession: SELECT ... FROM review_sessions
WHERE id = ?. A query-level driver failure is modelled by the fault
flag; sql.ErrNoRows (no matching row) is mapped to (nil, nil). -/
def GetReviewSession (queryFail : Bool) (s : Store) (id : Int) :
    Except String (Option ReviewSession) :=
  if queryFail then Except.error "failed to get review session"
  else
    match s.sessions.find? (fun x => x.id == id) with
    | none => Except.ok none
    | some x => Except.ok (some x)

/-- Flag values received by the review command (part_003): the three
outcome flags, the reviewer, the notes, and the review type (whose
cobra default is reviewTypeFlagDefault). -/
structure ReviewFlags where
  approve : Bool
  revise : Bool
  deferReview : Bool
  reviewer : String
  notes : String
  reviewType : String
deriving Repr, DecidableEq

/-- Number of outcome flags set (part_003 lines 50-59). -/
def outcomeFlagCount (fl : ReviewFlags) : Nat :=
  (if fl.approve then 1 else 0) + (if fl.revise then 1 else 0) +
    (if fl.deferReview then 1 else 0)

/-- The review command (part_003): validate the outcome flags, the
reviewer and the review type, look up the issue, then call CreateReview.
FatalError paths are modelled as an error result with the store
untouched. -/
def reviewCmd (f : TxFaults) (s : Store) (issueID : String) (fl : ReviewFlags)
    (actor : String) (now : Nat) : Store × Option String :=
  if outcomeFlagCount fl == 0 then
    (s, some "must specify one of --approve, --revise, or --defer")
  else if 1 < outcomeFlagCount fl then
    (s, some "can only specify one of --approve, --revise, or --defer")
  else if fl.reviewer == "" then
    (s, some "--reviewer is required")
  else
    let outcome :=
      if fl.approve then ReviewOutcomeApproved
      else if fl.revise then ReviewOutcomeNeedsRevision
      else ReviewOutcomeDeferred
    if !(ReviewTypeIsValid fl.reviewType) then
      (s, some "invalid review type")
    else
      match s.issues.find? (fun i => i.id == issueID) with
      | none => (s, some "issue not found")
      | some _ =>
        CreateReview f s
          { id := 0, issueID := issueID, reviewType := fl.reviewType, outcome := outcome
            reviewer := fl.reviewer, notes := fl.notes, createdAt := 0 }
          actor now

/-- One CreateReview invocation: the review argument, the acting user,
and the wall-clock time at which the call runs. -/
structure ReviewCall where
  review : Review
  actor : String
  now : Nat
deriving Repr, DecidableEq

/-- Run a sequence of CreateReview calls (all statements succeeding at
the driver level), stopping at the first error. -/
def runCreateReviews (s : Store) (calls : List ReviewCall) : Store × Option String :=
  match calls with
  | [] => (s, none)
  | c :: rest =>
    match CreateReview noFaults s c.review c.actor c.now with
    | (s1, none) => runCreateReviews s1 rest
    | (s1, some e) => (s1, some e)

/-- The dirty markers of one issue. -/
def dirtyFor (s : Store) (issueID : String) : List DirtyMarker :=
  s.dirtyIssues.filter (fun d => d.issueID == issueID)

/-- The review rows of one issue, in insertion (creation) order. -/
def reviewsFor (s : Store) (issueID : String) : List Review :=
  s.reviews.filter (fun r => r.issueID == issueID)

/-- Combined effect of a committed CreateReview transaction on the
store, used to state the success case of the lemmas below. -/
def applyCreateReview (s : Store) (review : Review) (actor : String) (now : Nat) : Store :=
  { issues := s.issues.map (setIssueReviewFields review.issueID review.outcome review.reviewer now)
    reviews := s.reviews ++ [reviewRecord s review now]
    dirtyIssues := upsertDirtyList s.dirtyIssues review.issueID now
    events := s.events ++
      [{ issueID := review.issueID, eventType := "reviewed", actor := actor
         comment := reviewComment review.outcome review.reviewer }]
    sessions := s.sessions
    nextReviewID := s.nextReviewID + 1 }

/-- Example issue used to instantiate the theorems. -/
def exIssue : Issue :=
  { id := "bd-1", title := "demo", reviewStatus := "unreviewed", reviewedBy := ""
    reviewedAt := none, updatedAt := 0 }

/-- Example store holding one unreviewed issue. -/
def exStore : Store :=
  { issues := [exIssue], reviews := [], dirtyIssues := [], events := [], sessions := []
    nextReviewID := 1 }

/-- Example review argument with the zero CreatedAt the CLI passes. -/
def exReview : Review :=
  { id := 0, issueID := "bd-1", reviewType := "plan", outcome := "approved"
    reviewer := "alice", notes := "", createdAt := 0 }

/-- Example review argument carrying an explicit non-zero CreatedAt. -/
def exReviewNZ : Review := { exReview with createdAt := 5 }

theorem validOutcome_allowed (o : String) (h : validOutcome o = true) :
    allowedReviewStatus o = true := by
  simp only [validOutcome, Bool.or_eq_true, beq_iff_eq] at h
  rcases h with (h | h) | h <;> subst h <;> decide

theorem setIssue_id (iid o rev : String) (t : Nat) (i : Issue) :
    (setIssueReviewFields iid o rev t i).id = i.id := by
  unfold setIssueReviewFields
  split <;> rfl

theorem CreateReview_noFaults_eq (s : Store) (r : Review) (a : String) (t : Nat)
    (h : validOutcome r.outcome = true) :
    CreateReview noFaults s r a t = (applyCreateReview s r a t, none) := by
  have h2 : allowedReviewStatus r.outcome = true := validOutcome_allowed r.outcome h
  simp [CreateReview, withTx, createReviewBody, execInsertReview, execUpdateIssue,
        execMarkDirty, execRecordEvent, noFaults, h, h2, applyCreateReview]

theorem CreateReview_ok {f : TxFaults} {s : Store} {r : Review} {a : String} {t : Nat}
    {s' : Store} (h : CreateReview f s r a t = (s', none)) :
    validOutcome r.outcome = true ∧ s' = applyCreateReview s r a t := by
  rcases f with ⟨fi, fu, fd, fe⟩
  by_cases ho : validOutcome r.outcome = true
  · refine ⟨ho, ?_⟩
    have h2 := validOutcome_allowed r.outcome ho
    cases fi <;> cases fu <;> cases fd <;> cases fe <;>
      simp [CreateReview, withTx, createReviewBody, execInsertReview, execUpdateIssue,
            execMarkDirty, execRecordEvent, ho, h2, applyCreateReview] at h <;>
      exact h.symm
  · exfalso
    have ho' : validOutcome r.outcome = false := by
      simpa using ho
    cases fi <;>
      simp [CreateReview, withTx, createReviewBody, execInsertReview, ho'] at h

theorem mem_map_setIssue {l : List Issue} {iid o rev : String} {t : Nat} {i : Issue}
    (hmem : i ∈ l.map (setIssueReviewFields iid o rev t)) (hid : i.id = iid) :
    i.reviewStatus = o ∧ i.reviewedBy = rev ∧ i.reviewedAt = some t := by
  obtain ⟨j, hj, rfl⟩ := List.mem_map.mp hmem
  by_cases hb : (j.id == iid) = true
  · simp [setIssueReviewFields, hb]
  · exfalso
    unfold setIssueReviewFields at hid
    rw [if_neg hb] at hid
    exact hb (beq_iff_eq.mpr hid)

theorem find?_isSome_map_setIssue (l : List Issue) (iid o rev : String) (t : Nat)
    (iid2 : String) (h : (l.find? (fun i => i.id == iid2)).isSome = true) :
    ((l.map (setIssueReviewFields iid o rev t)).find? (fun i => i.id == iid2)).isSome = true := by
  induction l with
  | nil => simp at h
  | cons x xs ih =>
    by_cases hx : (x.id == iid2) = true
    · have hgx : ((setIssueReviewFields iid o rev t x).id == iid2) = true := by
        rw [setIssue_id]; exact hx
      rw [List.map_cons, List.find?_cons_of_pos (p := fun i : Issue => i.id == iid2) _ hgx]
      rfl
    · have hgx : ¬ ((setIssueReviewFields iid o rev t x).id == iid2) = true := by
        rw [setIssue_id]; exact hx
      rw [List.find?_cons_of_neg (p := fun i : Issue => i.id == iid2) _ hx] at h
      rw [List.map_cons, List.find?_cons_of_neg (p := fun i : Issue => i.id == iid2) _ hgx]
      exact ih h

theorem mem_upsertDirtyList (l : List DirtyMarker) (iid : String) (t : Nat) :
    ∃ d ∈ upsertDirtyList l iid t, d.issueID = iid ∧ d.markedAt = t := by
  unfold upsertDirtyList
  by_cases hany : l.any (fun d => d.issueID == iid) = true
  · rw [if_pos hany]
    obtain ⟨d0, hd0, hp⟩ := List.any_eq_true.mp hany
    refine ⟨{ d0 with markedAt := t }, ?_, eq_of_beq hp, rfl⟩
    refine List.mem_map.mpr ⟨d0, hd0, ?_⟩
    rw [if_pos hp]
  · rw [if_neg hany]
    exact ⟨{ issueID := iid, markedAt := t }, by simp, rfl, rfl⟩

theorem filter_upsertDirtyList (l : List DirtyMarker) (iid : String) (t : Nat)
    (h : (l.filter (fun d => d.issueID == iid)).length ≤ 1) :
    (upsertDirtyList l iid t).filter (fun d => d.issueID == iid) =
      [{ issueID := iid, markedAt := t }] := by
  unfold upsertDirtyList
  by_cases hany : l.any (fun d => d.issueID == iid) = true
  · rw [if_pos hany]
    have key : ∀ m : List DirtyMarker,
        (m.map (fun d => if d.issueID == iid then { d with markedAt := t } else d)).filter
            (fun d => d.issueID == iid) =
          (m.filter (fun d => d.issueID == iid)).map
            (fun _ => { issueID := iid, markedAt := t }) := by
      intro m
      induction m with
      | nil => rfl
      | cons d rest ih =>
        by_cases hd : (d.issueID == iid) = true
        · have hdeq : d.issueID = iid := eq_of_beq hd
          have hgd : (({ d with markedAt := t } : DirtyMarker).issueID == iid) = true := hd
          simp only [List.map_cons, if_pos hd]
          rw [List.filter_cons_of_pos (p := fun d : DirtyMarker => d.issueID == iid) hgd,
              List.filter_cons_of_pos (p := fun d : DirtyMarker => d.issueID == iid) hd,
              List.map_cons, ih, hdeq]
        · simp only [List.map_cons, if_neg hd]
          rw [List.filter_cons_of_neg (p := fun d : DirtyMarker => d.issueID == iid) hd,
              List.filter_cons_of_neg (p := fun d : DirtyMarker => d.issueID == iid) hd, ih]
    rw [key]
    obtain ⟨d0, hd0, hp⟩ := List.any_eq_true.mp hany
    have hmem : d0 ∈ l.filter (fun d => d.issueID == iid) := List.mem_filter.mpr ⟨hd0, hp⟩
    have h1 : 0 < (l.filter (fun d => d.issueID == iid)).length :=
      List.length_pos_of_mem hmem
    have hlen : (l.filter (fun d => d.issueID == iid)).length = 1 := le_antisymm h h1
    obtain ⟨x, hx⟩ := List.length_eq_one.mp hlen
    rw [hx]
    rfl
  · rw [if_neg hany]
    have hnil : l.filter (fun d => d.issueID == iid) = [] := by
      rw [List.filter_eq_nil_iff]
      intro d hd hpd
      exact hany (List.any_eq_true.mpr ⟨d, hd, hpd⟩)
    rw [List.filter_append, hnil]
    simp

theorem runCreateReviews_cons {s s' : Store} {c : ReviewCall} {rest : List ReviewCall}
    (h : runCreateReviews s (c :: rest) = (s', none)) :
    ∃ s1, CreateReview noFaults s c.review c.actor c.now = (s1, none) ∧
      runCreateReviews s1 rest = (s', none) := by
  unfold runCreateReviews at h
  rcases hc : CreateReview noFaults s c.review c.actor c.now with ⟨s1, e1⟩
  rw [hc] at h
  cases e1 with
  | none => exact ⟨s1, rfl, h⟩
  | some e => simp at h

/-- Validation failures of the review command return the store unchanged
with an error, shared by the theorems about claims on the command's
validation taxonomy. -/
theorem reviewCmd_rejects_invalid (f : TxFaults) (s : Store) (iid : String)
    (fl : ReviewFlags) (a : String) (t : Nat)
    (h : outcomeFlagCount fl = 0 ∨ 1 < outcomeFlagCount fl ∨ fl.reviewer = "" ∨
      ReviewTypeIsValid fl.reviewType = false) :
    ∃ e, reviewCmd f s iid fl a t = (s, some e) := by
  by_cases h0 : outcomeFlagCount fl = 0
  · exact ⟨"must specify one of --approve, --revise, or --defer", by simp [reviewCmd, h0]⟩
  · by_cases hm : 1 < outcomeFlagCount fl
    · exact ⟨"can only specify one of --approve, --revise, or --defer",
        by simp [reviewCmd, h0, hm]⟩
    · by_cases hr : fl.reviewer = ""
      · exact ⟨"--reviewer is required", by simp [reviewCmd, h0, hm, hr]⟩
      · by_cases hty : ReviewTypeIsValid fl.reviewType = false
        · exact ⟨"invalid review type", by simp [reviewCmd, h0, hm, hr, hty]⟩
        · exfalso
          rcases h with h | h | h | h
          · exact h0 h
          · exact hm h
          · exact hr h
          · exact hty h

/-- The review command on validation success reduces to CreateReview on
the review record built from the flags. -/
theorem reviewCmd_valid_eq {s : Store} {iid : String} {fl : ReviewFlags} {a : String}
    {t : Nat} (f : TxFaults) (hone : outcomeFlagCount fl = 1) (hrev : fl.reviewer ≠ "")
    (hty : ReviewTypeIsValid fl.reviewType = true)
    (hiss : (s.issues.find? (fun i => i.id == iid)).isSome = true) :
    reviewCmd f s iid fl a t =
      CreateReview f s
        { id := 0, issueID := iid, reviewType := fl.reviewType
          outcome :=
            if fl.approve then ReviewOutcomeApproved
            else if fl.revise then ReviewOutcomeNeedsRevision
            else ReviewOutcomeDeferred
          reviewer := fl.reviewer, notes := fl.notes, createdAt := 0 } a t := by
  obtain ⟨iss, hfind⟩ := Option.isSome_iff_exists.mp hiss
  simp [reviewCmd, hone, hrev, hty, hfind]

/-- C1: CreateReview executes its four writes inside one transaction:
whenever any step fails the store is unchanged (the transaction rolls
back), and whenever the call succeeds the review row, the issue's
review summary fields, the dirty marker and the audit event are all
applied. -/
theorem CreateReview_transaction_atomic (f : TxFaults) (s : Store) (r : Review)
    (a : String) (t : Nat) :
    (∀ e, (CreateReview f s r a t).2 = some e → (CreateReview f s r a t).1 = s) ∧
    (∀ s', CreateReview f s r a t = (s', none) →
      s'.reviews = s.reviews ++ [reviewRecord s r t] ∧
      (∀ i ∈ s'.issues, i.id = r.issueID →
        i.reviewStatus = r.outcome ∧ i.reviewedBy = r.reviewer ∧ i.reviewedAt = some t) ∧
      (∃ d ∈ s'.dirtyIssues, d.issueID = r.issueID ∧ d.markedAt = t) ∧
      s'.events = s.events ++
        [{ issueID := r.issueID, eventType := "reviewed", actor := a
           comment := reviewComment r.outcome r.reviewer }]) := by
  constructor
  · intro e he
    unfold CreateReview withTx at he ⊢
    rcases hb : createReviewBody f r a t s with ⟨s1, e1⟩
    rw [hb] at he
    cases e1 with
    | none => exact Option.noConfusion he
    | some e2 => rfl
  · intro s' h
    obtain ⟨hvo, rfl⟩ := CreateReview_ok h
    refine ⟨rfl, ?_, ?_, rfl⟩
    · intro i hi hid
      exact mem_map_setIssue hi hid
    · exact mem_upsertDirtyList s.dirtyIssues r.issueID t

/-- Witness for C1: at a concrete store, a fully failing transaction
leaves the store unchanged and a fully successful one appends the audit
event. -/
theorem CreateReview_transaction_atomic_witness :
    (CreateReview allFaults exStore exReview "bob" 7).1 = exStore ∧
    (CreateReview noFaults exStore exReview "bob" 7).1.events =
      exStore.events ++
        [{ issueID := "bd-1", eventType := "reviewed", actor := "bob"
           comment := reviewComment "approved" "alice" }] := by
  constructor
  · exact (CreateReview_transaction_atomic allFaults exStore exReview "bob" 7).1
      "failed to insert review" (by decide)
  · exact ((CreateReview_transaction_atomic noFaults exStore exReview "bob" 7).2
      (CreateReview noFaults exStore exReview "bob" 7).1 (by decide)).2.2.2

/-- C3: the review command rejects zero or duplicate outcome flags, an
empty reviewer and an unknown review type as validation errors, with
the store returned unchanged (no review row, issue update, dirty
marker or audit event). -/
theorem reviewCmd_validation_rejects (f : TxFaults) (s : Store) (iid : String)
    (fl : ReviewFlags) (a : String) (t : Nat)
    (h : outcomeFlagCount fl = 0 ∨ 1 < outcomeFlagCount fl ∨ fl.reviewer = "" ∨
      ReviewTypeIsValid fl.reviewType = false) :
    ∃ e, reviewCmd f s iid fl a t = (s, some e) :=
  reviewCmd_rejects_invalid f s iid fl a t h

/-- Flags with no outcome flag set, used to instantiate C3. -/
def exFlagsZero : ReviewFlags :=
  { approve := false, revise := false, deferReview := false, reviewer := "alice"
    notes := "", reviewType := "plan" }

/-- Witness for C3: a call with zero outcome flags is rejected and the
example store is unchanged. -/
theorem reviewCmd_validation_rejects_witness :
    ∃ e, reviewCmd noFaults exStore "bd-1" exFlagsZero "bob" 3 = (exStore, some e) :=
  reviewCmd_validation_rejects noFaults exStore "bd-1" exFlagsZero "bob" 3 (Or.inl (by decide))

/-- C6: every successful CreateReview appends exactly one audit event of
type "reviewed" for the item, attributed to the supplied actor, whose
comment embeds both the review's outcome and the reviewer name. -/
theorem CreateReview_audit_event {f : TxFaults} {s : Store} {r : Review} {a : String}
    {t : Nat} {s' : Store} (h : CreateReview f s r a t = (s', none)) :
    s'.events = s.events ++
      [{ issueID := r.issueID, eventType := "reviewed", actor := a
         comment := reviewComment r.outcome r.reviewer }] ∧
    (∃ x y, reviewComment r.outcome r.reviewer = x ++ r.outcome ++ y) ∧
    (∃ x, reviewComment r.outcome r.reviewer = x ++ r.reviewer) := by
  obtain ⟨hvo, rfl⟩ := CreateReview_ok h
  refine ⟨rfl, ⟨"Review: ", " by " ++ r.reviewer, ?_⟩,
    ⟨"Review: " ++ r.outcome ++ " by ", rfl⟩⟩
  unfold reviewComment
  rw [String.append_assoc]

/-- Witness for C6 at a concrete successful call. -/
theorem CreateReview_audit_event_witness :
    (CreateReview noFaults exStore exReview "carol" 3).1.events =
      exStore.events ++
        [{ issueID := "bd-1", eventType := "reviewed", actor := "carol"
           comment := reviewComment "approved" "alice" }] :=
  (CreateReview_audit_event
    (by decide : CreateReview noFaults exStore exReview "carol" 3 =
      ((CreateReview noFaults exStore exReview "carol" 3).1, none))).1

/-- C7: GetReviewsByIssue returns exactly the review records of the
item (with all their fields), sorted ascending by created_at. -/
theorem GetReviewsByIssue_sorted_complete (s : Store) (iid : String) :
    List.Sorted reviewLE (GetReviewsByIssue s iid) ∧
    ∀ x, x ∈ GetReviewsByIssue s iid ↔ (x ∈ s.reviews ∧ x.issueID = iid) := by
  constructor
  · exact List.sorted_insertionSort reviewLE _
  · intro x
    simp [GetReviewsByIssue, List.mem_filter]

/-- C8: the review type domain is plan, implementation, security and
custom; the type flag of the review command defaults to plan (which is
valid); a type outside the domain makes the command fail validation
with the store unchanged. -/
theorem reviewType_domain :
    (∀ ty, ReviewTypeIsValid ty = true ↔
      (ty = "plan" ∨ ty = "implementation" ∨ ty = "security" ∨ ty = "custom")) ∧
    reviewTypeFlagDefault = "plan" ∧
    ReviewTypeIsValid reviewTypeFlagDefault = true ∧
    (∀ f s iid fl a t, ReviewTypeIsValid fl.reviewType = false →
      ∃ e, reviewCmd f s iid fl a t = (s, some e)) := by
  refine ⟨?_, rfl, rfl, ?_⟩
  · intro ty
    simp [ReviewTypeIsValid, Bool.or_eq_true, beq_iff_eq, or_assoc]
  · intro f s iid fl a t hty
    exact reviewCmd_rejects_invalid f s iid fl a t (Or.inr (Or.inr (Or.inr hty)))

/-- Flags whose review type is outside the domain, used to instantiate
C8. -/
def exFlagsBadType : ReviewFlags :=
  { approve := true, revise := false, deferReview := false, reviewer := "alice"
    notes := "", reviewType := "review" }

/-- Witness for C8: an unknown review type is rejected at a concrete
store. -/
theorem reviewType_domain_witness :
    ∃ e, reviewCmd noFaults exStore "bd-1" exFlagsBadType "bob" 3 = (exStore, some e) :=
  reviewType_domain.2.2.2 noFaults exStore "bd-1" exFlagsBadType "bob" 3 (by decide)

/-- C9: review records are append-only: after a successful CreateReview,
every previously returned record of every item is still returned
unchanged by GetReviewsByIssue, and for the reviewed item exactly the
one new record is added. -/
theorem CreateReview_append_only {f : TxFaults} {s : Store} {r : Review} {a : String}
    {t : Nat} {s' : Store} (h : CreateReview f s r a t = (s', none)) (iid : String) :
    (∀ x ∈ GetReviewsByIssue s iid, x ∈ GetReviewsByIssue s' iid) ∧
    List.Perm (GetReviewsByIssue s' iid)
      (GetReviewsByIssue s iid ++
        if r.issueID == iid then [reviewRecord s r t] else []) := by
  obtain ⟨hvo, rfl⟩ := CreateReview_ok h
  have hfil : (s.reviews ++ [reviewRecord s r t]).filter (fun x => x.issueID == iid) =
      s.reviews.filter (fun x => x.issueID == iid) ++
        (if r.issueID == iid then [reviewRecord s r t] else []) := by
    rw [List.filter_append]
    congr 1
    simp only [List.filter_cons, List.filter_nil]
    rfl
  constructor
  · intro x hx
    have hx1 : x ∈ s.reviews.filter (fun y => y.issueID == iid) := by
      simpa [GetReviewsByIssue] using hx
    have hx2 : x ∈ (s.reviews ++ [reviewRecord s r t]).filter (fun y => y.issueID == iid) := by
      rw [List.filter_append]
      exact List.mem_append_left _ hx1
    simpa [GetReviewsByIssue, applyCreateReview] using hx2
  · have h1 : List.Perm
        (GetReviewsByIssue (applyCreateReview s r a t) iid)
        ((s.reviews ++ [reviewRecord s r t]).filter (fun x => x.issueID == iid)) :=
      List.perm_insertionSort reviewLE _
    rw [hfil] at h1
    refine h1.trans ?_
    exact List.Perm.append_right _ (List.perm_insertionSort reviewLE _).symm

/-- Witness for C9 at a concrete successful call. -/
theorem CreateReview_append_only_witness :
    List.Perm (GetReviewsByIssue (CreateReview noFaults exStore exReview "dan" 4).1 "bd-1")
      (GetReviewsByIssue exStore "bd-1" ++
        if exReview.issueID == "bd-1" then [reviewRecord exStore exReview 4] else []) :=
  (CreateReview_append_only
    (by decide : CreateReview noFaults exStore exReview "dan" 4 =
      ((CreateReview noFaults exStore exReview "dan" 4).1, none)) "bd-1").2

/-- C10: looking up a review session by an id with no matching row
yields an empty result (no session) without an error; an error occurs
only when the query itself fails. -/
theorem GetReviewSession_missing_id (s : Store) (i : Int)
    (h : s.sessions.find? (fun x => x.id == i) = none) :
    GetReviewSession false s i = Except.ok none ∧
    (∀ b e, GetReviewSession b s i = Except.error e → b = true) := by
  have hok : GetReviewSession false s i = Except.ok none := by
    simp [GetReviewSession, h]
  refine ⟨hok, ?_⟩
  intro b e hbe
  cases b with
  | true => rfl
  | false =>
    rw [hok] at hbe
    simp at hbe

/-- Witness for C10: id 42 is absent from the example store. -/
theorem GetReviewSession_missing_id_witness :
    GetReviewSession false exStore 42 = Except.ok none :=
  (GetReviewSession_missing_id exStore 42 (by decide)).1

/-- C2 counterexample: with an explicit non-zero CreatedAt of 5 and a
transaction time of 10, CreateReview succeeds, the only review record of
the item has created_at 5, yet the item's reviewed_at becomes 10: the
summary field does not equal the created_at of the most recently created
review record. -/
theorem reviewedAt_not_createdAt_counterexample :
    (CreateReview noFaults exStore exReviewNZ "bob" 10).2 = none ∧
    (reviewsFor (CreateReview noFaults exStore exReviewNZ "bob" 10).1 "bd-1").map
        (fun r => r.createdAt) = [5] ∧
    ((CreateReview noFaults exStore exReviewNZ "bob" 10).1.issues.map
        (fun i => i.reviewedAt)) = [some 10] ∧
    (some 10 : Option Nat) ≠ some 5 := by decide

/-- Effect of one successful zero-CreatedAt CreateReview call on the
review rows and summary fields of the reviewed item. -/
theorem applyCreateReview_single {s : Store} {rv : Review} {a : String} {t : Nat}
    (iid : String) (hid : rv.issueID = iid) (hz : rv.createdAt = 0) :
    ∃ rec, (reviewsFor (applyCreateReview s rv a t) iid).getLast? = some rec ∧
      rec.outcome = rv.outcome ∧ rec.reviewer = rv.reviewer ∧ rec.createdAt = t ∧
      ∀ i ∈ (applyCreateReview s rv a t).issues, i.id = iid →
        i.reviewStatus = rec.outcome ∧ i.reviewedBy = rec.reviewer ∧
          i.reviewedAt = some rec.createdAt := by
  have hca : (reviewRecord s rv t).createdAt = t := by
    unfold reviewRecord
    simp [hz]
  have hrid : ((reviewRecord s rv t).issueID == iid) = true := by
    unfold reviewRecord
    exact beq_iff_eq.mpr hid
  have hfil : reviewsFor (applyCreateReview s rv a t) iid =
      reviewsFor s iid ++ [reviewRecord s rv t] := by
    unfold reviewsFor applyCreateReview
    rw [List.filter_append]
    congr 1
    rw [List.filter_cons_of_pos (p := fun r : Review => r.issueID == iid) hrid,
        List.filter_nil]
  refine ⟨reviewRecord s rv t, ?_, rfl, rfl, hca, ?_⟩
  · rw [hfil, List.getLast?_concat]
  · intro i hi hidi
    have hi' : i ∈ s.issues.map (setIssueReviewFields rv.issueID rv.outcome rv.reviewer t) := hi
    have h3 := mem_map_setIssue hi' (hidi.trans hid.symm)
    refine ⟨h3.1, h3.2.1, ?_⟩
    rw [hca]
    exact h3.2.2

/-- Induction core for the claim that the item's summary review fields
track the most recently created review record. -/
theorem summary_last_aux (iid : String) :
    ∀ (calls : List ReviewCall) (s s' : Store), calls ≠ [] →
      (∀ c ∈ calls, c.review.issueID = iid ∧ c.review.createdAt = 0) →
      runCreateReviews s calls = (s', none) →
      ∃ rec, (reviewsFor s' iid).getLast? = some rec ∧
        ∀ i ∈ s'.issues, i.id = iid →
          i.reviewStatus = rec.outcome ∧ i.reviewedBy = rec.reviewer ∧
            i.reviewedAt = some rec.createdAt := by
  intro calls
  induction calls with
  | nil =>
    intro s s' hne _ _
    exact absurd rfl hne
  | cons c rest ih =>
    intro s s' _ hall hrun
    obtain ⟨s1, hc, hrest⟩ := runCreateReviews_cons hrun
    have hci := hall c (List.mem_cons_self c rest)
    cases rest with
    | nil =>
      have hs1 : s1 = s' := congrArg Prod.fst hrest
      subst hs1
      obtain ⟨hvo, rfl⟩ := CreateReview_ok hc
      obtain ⟨rec, h1, _, _, _, h2⟩ := applyCreateReview_single iid hci.1 hci.2
      exact ⟨rec, h1, h2⟩
    | cons c2 rest2 =>
      exact ih s1 s' (by simp) (fun x hx => hall x (List.mem_cons_of_mem c hx)) hrest

/-- C2 (amended): after every nonempty sequence of successful
CreateReview calls for an item in which each call leaves CreatedAt zero
(as the CLI does), the item's review_status, reviewed_by and
reviewed_at equal the outcome, reviewer and created_at of the most
recently created review record for that item. -/
theorem runCreateReviews_summary_tracks_last (calls : List ReviewCall) (s s' : Store)
    (iid : String) (hne : calls ≠ [])
    (hall : ∀ c ∈ calls, c.review.issueID = iid ∧ c.review.createdAt = 0)
    (hrun : runCreateReviews s calls = (s', none)) :
    ∃ rec, (reviewsFor s' iid).getLast? = some rec ∧
      ∀ i ∈ s'.issues, i.id = iid →
        i.reviewStatus = rec.outcome ∧ i.reviewedBy = rec.reviewer ∧
          i.reviewedAt = some rec.createdAt :=
  summary_last_aux iid calls s s' hne hall hrun

/-- First call of the concrete two-call run used by the witnesses. -/
def exCallA : ReviewCall := { review := exReview, actor := "bob", now := 4 }

/-- Second call of the concrete two-call run used by the witnesses. -/
def exCallB : ReviewCall :=
  { review := { exReview with outcome := "deferred", reviewer := "carol" }
    actor := "bob", now := 9 }

/-- Review record produced by the second concrete call. -/
def exRec2 : Review :=
  { id := 2, issueID := "bd-1", reviewType := "plan", outcome := "deferred"
    reviewer := "carol", notes := "", createdAt := 9 }

/-- Witness for the amended C2 at a concrete two-call run. -/
theorem runCreateReviews_summary_tracks_last_witness :
    ∃ rec, (reviewsFor (runCreateReviews exStore [exCallA, exCallB]).1 "bd-1").getLast? =
        some rec ∧
      (runCreateReviews exStore [exCallA, exCallB]).1.issues.map
          (fun i => (i.reviewStatus, i.reviewedBy, i.reviewedAt)) =
        [(rec.outcome, rec.reviewer, some rec.createdAt)] := by
  obtain ⟨rec, hlast, hiss⟩ := runCreateReviews_summary_tracks_last [exCallA, exCallB]
    exStore (runCreateReviews exStore [exCallA, exCallB]).1 "bd-1" (by decide) (by decide)
    (by decide)
  have hrec : rec = exRec2 := Option.some.inj (hlast.symm.trans (by decide))
  subst hrec
  exact ⟨exRec2, hlast, by decide⟩

/-- Induction core for the dirty-marker upsert claim. -/
theorem dirty_marker_aux (iid : String) :
    ∀ (calls : List ReviewCall) (s s' : Store), calls ≠ [] →
      (∀ c ∈ calls, c.review.issueID = iid) →
      (dirtyFor s iid).length ≤ 1 →
      runCreateReviews s calls = (s', none) →
      ∃ c, calls.getLast? = some c ∧
        dirtyFor s' iid = [{ issueID := iid, markedAt := c.now }] := by
  intro calls
  induction calls with
  | nil =>
    intro s s' hne _ _ _
    exact absurd rfl hne
  | cons c rest ih =>
    intro s s' _ hall hcnt hrun
    obtain ⟨s1, hc, hrest⟩ := runCreateReviews_cons hrun
    obtain ⟨hvo, rfl⟩ := CreateReview_ok hc
    have hci : c.review.issueID = iid := hall c (List.mem_cons_self c rest)
    have hdirty : dirtyFor (applyCreateReview s c.review c.actor c.now) iid =
        [{ issueID := iid, markedAt := c.now }] := by
      unfold dirtyFor applyCreateReview
      rw [hci]
      exact filter_upsertDirtyList s.dirtyIssues iid c.now hcnt
    cases rest with
    | nil =>
      have hs1 : applyCreateReview s c.review c.actor c.now = s' :=
        congrArg Prod.fst hrest
      subst hs1
      exact ⟨c, rfl, hdirty⟩
    | cons c2 rest2 =>
      have hcnt1 : (dirtyFor (applyCreateReview s c.review c.actor c.now) iid).length ≤ 1 := by
        rw [hdirty]
        exact Nat.le_refl 1
      obtain ⟨cl, hcl, hdl⟩ := ih (applyCreateReview s c.review c.actor c.now) s' (by simp)
        (fun x hx => hall x (List.mem_cons_of_mem c hx)) hcnt1 hrest
      refine ⟨cl, ?_, hdl⟩
      rw [List.getLast?_cons_cons]
      exact hcl

/-- C4: marking an item dirty is an upsert keyed on the item: after any
nonempty sequence of successful CreateReview calls for the item (on a
store with at most one marker for it, as the unique key guarantees),
exactly one dirty marker exists for the item, its marked_at is the
timestamp of the latest marking, and marked_at is at least the last
mutation's timestamp. -/
theorem CreateReview_dirty_upsert (calls : List ReviewCall) (s s' : Store) (iid : String)
    (hne : calls ≠ []) (hall : ∀ c ∈ calls, c.review.issueID = iid)
    (hcnt : (dirtyFor s iid).length ≤ 1)
    (hrun : runCreateReviews s calls = (s', none)) :
    ∃ c, calls.getLast? = some c ∧
      dirtyFor s' iid = [{ issueID := iid, markedAt := c.now }] ∧
      ∀ d ∈ dirtyFor s' iid, c.now ≤ d.markedAt := by
  obtain ⟨c, hcl, hd⟩ := dirty_marker_aux iid calls s s' hne hall hcnt hrun
  refine ⟨c, hcl, hd, ?_⟩
  intro d hdm
  rw [hd] at hdm
  have : d = { issueID := iid, markedAt := c.now } := by
    simpa using hdm
  rw [this]

/-- Witness for C4 at the concrete two-call run: one marker remains,
stamped with the last call's time. -/
theorem CreateReview_dirty_upsert_witness :
    dirtyFor (runCreateReviews exStore [exCallA, exCallB]).1 "bd-1" =
      [{ issueID := "bd-1", markedAt := 9 }] := by
  obtain ⟨c, hcl, hd, _⟩ := CreateReview_dirty_upsert [exCallA, exCallB] exStore
    (runCreateReviews exStore [exCallA, exCallB]).1 "bd-1" (by decide) (by decide)
    (by decide) (by decide)
  have hce : c = exCallB := Option.some.inj (hcl.symm.trans (by decide))
  rw [hce] at hd
  exact hd

/-- Review value the review command passes to CreateReview. -/
def cmdReview (iid : String) (fl : ReviewFlags) : Review :=
  { id := 0, issueID := iid, reviewType := fl.reviewType
    outcome :=
      if fl.approve then ReviewOutcomeApproved
      else if fl.revise then ReviewOutcomeNeedsRevision
      else ReviewOutcomeDeferred
    reviewer := fl.reviewer, notes := fl.notes, createdAt := 0 }

/-- Flags of a review call carrying only --approve. -/
def approveFlags (rev n : String) : ReviewFlags :=
  { approve := true, revise := false, deferReview := false, reviewer := rev
    notes := n, reviewType := "plan" }

/-- Flags of a review call carrying only --revise. -/
def reviseFlags (rev n : String) : ReviewFlags :=
  { approve := false, revise := true, deferReview := false, reviewer := rev
    notes := n, reviewType := "plan" }

/-- C5: review transitions are re-enterable: an approve call followed by
a revise call on the same item both succeed, produce two review records
in chronological order, and leave the item's summary fields equal to the
second (most recent) review's outcome, reviewer and time; the first call
may start from any prior review_status. -/
theorem reviewCmd_approve_then_revise (s : Store) (iid rev1 rev2 a1 a2 n1 n2 : String)
    (t1 t2 : Nat)
    (hiss : (s.issues.find? (fun i => i.id == iid)).isSome = true)
    (hprev : reviewsFor s iid = [])
    (ht : t1 ≤ t2) (h1 : rev1 ≠ "") (h2 : rev2 ≠ "") :
    ∃ s1 s2 r1 r2,
      reviewCmd noFaults s iid (approveFlags rev1 n1) a1 t1 = (s1, none) ∧
      reviewCmd noFaults s1 iid (reviseFlags rev2 n2) a2 t2 = (s2, none) ∧
      GetReviewsByIssue s2 iid = [r1, r2] ∧
      r1.outcome = ReviewOutcomeApproved ∧ r1.reviewer = rev1 ∧ r1.createdAt = t1 ∧
      r2.outcome = ReviewOutcomeNeedsRevision ∧ r2.reviewer = rev2 ∧ r2.createdAt = t2 ∧
      ∀ i ∈ s2.issues, i.id = iid →
        i.reviewStatus = r2.outcome ∧ i.reviewedBy = r2.reviewer ∧
          i.reviewedAt = some r2.createdAt := by
  have e1 : reviewCmd noFaults s iid (approveFlags rev1 n1) a1 t1 =
      CreateReview noFaults s (cmdReview iid (approveFlags rev1 n1)) a1 t1 :=
    reviewCmd_valid_eq noFaults rfl h1 rfl hiss
  have c1 : CreateReview noFaults s (cmdReview iid (approveFlags rev1 n1)) a1 t1 =
      (applyCreateReview s (cmdReview iid (approveFlags rev1 n1)) a1 t1, none) :=
    CreateReview_noFaults_eq s _ a1 t1 rfl
  have hiss1 : ((applyCreateReview s (cmdReview iid (approveFlags rev1 n1)) a1 t1).issues.find?
      (fun i => i.id == iid)).isSome = true :=
    find?_isSome_map_setIssue s.issues _ _ _ t1 iid hiss
  have e2 : reviewCmd noFaults (applyCreateReview s (cmdReview iid (approveFlags rev1 n1)) a1 t1)
        iid (reviseFlags rev2 n2) a2 t2 =
      CreateReview noFaults (applyCreateReview s (cmdReview iid (approveFlags rev1 n1)) a1 t1)
        (cmdReview iid (reviseFlags rev2 n2)) a2 t2 :=
    reviewCmd_valid_eq noFaults rfl h2 rfl hiss1
  have c2 : CreateReview noFaults (applyCreateReview s (cmdReview iid (approveFlags rev1 n1)) a1 t1)
        (cmdReview iid (reviseFlags rev2 n2)) a2 t2 =
      (applyCreateReview (applyCreateReview s (cmdReview iid (approveFlags rev1 n1)) a1 t1)
        (cmdReview iid (reviseFlags rev2 n2)) a2 t2, none) :=
    CreateReview_noFaults_eq _ _ a2 t2 rfl
  have hrid1 : ((reviewRecord s (cmdReview iid (approveFlags rev1 n1)) t1).issueID == iid) = true :=
    beq_self_eq_true iid
  have hrid2 : ((reviewRecord (applyCreateReview s (cmdReview iid (approveFlags rev1 n1)) a1 t1)
      (cmdReview iid (reviseFlags rev2 n2)) t2).issueID == iid) = true :=
    beq_self_eq_true iid
  have hfil2 : reviewsFor (applyCreateReview
        (applyCreateReview s (cmdReview iid (approveFlags rev1 n1)) a1 t1)
        (cmdReview iid (reviseFlags rev2 n2)) a2 t2) iid =
      [reviewRecord s (cmdReview iid (approveFlags rev1 n1)) t1,
       reviewRecord (applyCreateReview s (cmdReview iid (approveFlags rev1 n1)) a1 t1)
         (cmdReview iid (reviseFlags rev2 n2)) t2] := by
    show ((s.reviews ++ [reviewRecord s (cmdReview iid (approveFlags rev1 n1)) t1]) ++
        [reviewRecord (applyCreateReview s (cmdReview iid (approveFlags rev1 n1)) a1 t1)
          (cmdReview iid (reviseFlags rev2 n2)) t2]).filter (fun r => r.issueID == iid) = _
    rw [List.filter_append, List.filter_append]
    rw [show s.reviews.filter (fun r => r.issueID == iid) = [] from hprev]
    rw [List.filter_cons_of_pos (p := fun r : Review => r.issueID == iid) hrid1,
        List.filter_cons_of_pos (p := fun r : Review => r.issueID == iid) hrid2,
        List.filter_nil]
    rfl
  have hca1 : (reviewRecord s (cmdReview iid (approveFlags rev1 n1)) t1).createdAt = t1 := rfl
  have hca2 : (reviewRecord (applyCreateReview s (cmdReview iid (approveFlags rev1 n1)) a1 t1)
      (cmdReview iid (reviseFlags rev2 n2)) t2).createdAt = t2 := rfl
  have hle : reviewLE (reviewRecord s (cmdReview iid (approveFlags rev1 n1)) t1)
      (reviewRecord (applyCreateReview s (cmdReview iid (approveFlags rev1 n1)) a1 t1)
        (cmdReview iid (reviseFlags rev2 n2)) t2) := by
    unfold reviewLE
    rw [hca1, hca2]
    exact ht
  have hGet : GetReviewsByIssue (applyCreateReview
        (applyCreateReview s (cmdReview iid (approveFlags rev1 n1)) a1 t1)
        (cmdReview iid (reviseFlags rev2 n2)) a2 t2) iid =
      [reviewRecord s (cmdReview iid (approveFlags rev1 n1)) t1,
       reviewRecord (applyCreateReview s (cmdReview iid (approveFlags rev1 n1)) a1 t1)
         (cmdReview iid (reviseFlags rev2 n2)) t2] := by
    unfold GetReviewsByIssue
    rw [show (applyCreateReview (applyCreateReview s (cmdReview iid (approveFlags rev1 n1)) a1 t1)
        (cmdReview iid (reviseFlags rev2 n2)) a2 t2).reviews.filter (fun r => r.issueID == iid) =
        _ from hfil2]
    simp only [List.insertionSort, List.orderedInsert_nil]
    exact List.orderedInsert_of_le reviewLE [] hle
  have hfields : ∀ i ∈ (applyCreateReview
        (applyCreateReview s (cmdReview iid (approveFlags rev1 n1)) a1 t1)
        (cmdReview iid (reviseFlags rev2 n2)) a2 t2).issues, i.id = iid →
      i.reviewStatus = ReviewOutcomeNeedsRevision ∧ i.reviewedBy = rev2 ∧
        i.reviewedAt = some t2 := by
    intro i hi hid
    have hi' : i ∈ (applyCreateReview s (cmdReview iid (approveFlags rev1 n1)) a1 t1).issues.map
        (setIssueReviewFields iid ReviewOutcomeNeedsRevision rev2 t2) := hi
    exact mem_map_setIssue hi' hid
  refine ⟨applyCreateReview s (cmdReview iid (approveFlags rev1 n1)) a1 t1,
    applyCreateReview (applyCreateReview s (cmdReview iid (approveFlags rev1 n1)) a1 t1)
      (cmdReview iid (reviseFlags rev2 n2)) a2 t2,
    reviewRecord s (cmdReview iid (approveFlags rev1 n1)) t1,
    reviewRecord (applyCreateReview s (cmdReview iid (approveFlags rev1 n1)) a1 t1)
      (cmdReview iid (reviseFlags rev2 n2)) t2,
    ?_, ?_, hGet, rfl, rfl, hca1, rfl, rfl, hca2, hfields⟩
  · rw [e1, c1]
  · rw [e2, c2]

/-- Witness for C5 at the example store: approve by alice at time 4,
then revise by carol at time 9. -/
theorem reviewCmd_approve_then_revise_witness :
    ∃ s1 s2 r1 r2,
      reviewCmd noFaults exStore "bd-1" (approveFlags "alice" "") "bob" 4 = (s1, none) ∧
      reviewCmd noFaults s1 "bd-1" (reviseFlags "carol" "") "bob" 9 = (s2, none) ∧
      GetReviewsByIssue s2 "bd-1" = [r1, r2] ∧
      r1.outcome = ReviewOutcomeApproved ∧ r1.reviewer = "alice" ∧ r1.createdAt = 4 ∧
      r2.outcome = ReviewOutcomeNeedsRevision ∧ r2.reviewer = "carol" ∧ r2.createdAt = 9 ∧
      ∀ i ∈ s2.issues, i.id = "bd-1" →
        i.reviewStatus = r2.outcome ∧ i.reviewedBy = r2.reviewer ∧
          i.reviewedAt = some r2.createdAt :=
  reviewCmd_approve_then_revise exStore "bd-1" "alice" "carol" "bob" "bob" "" "" 4 9
    (by decide) (by decide) (by decide) (by decide) (by decide)

end Beads
